import Mathlib

/-!
Verification development for the image resize-and-cache service
(src/src/services/ImageResizeService.js).

The embedding is shallow: each JS method of ImageResizeService becomes a
Lean function over explicit state.  Effects that leave the process
(network download, sharp metadata extraction, sharp encoding) are
modelled by an environment of oracle functions (`Env`); everything else
(cache bookkeeping, key derivation, batching, retry control flow,
format selection, color parsing) is translated directly from the source.
Machine arithmetic: the JS expression `(hash * 33) ^ code` coerces the
product through ToInt32 before the xor, so the running 32-bit pattern is
tracked as a `Nat` reduced mod 2^32; the final `>>> 0` is the identity
on that pattern.  Observable effects that the specification talks about
(downloader invocations, backoff waits) are returned as an event trace.
-/

/-- One remote image, as produced by the blob-listing collaborator.
The resize service reads exactly two fields: `fileName` and `fileUrl`. -/
structure SourceFile where
  fileName : String
  fileUrl : String
deriving DecidableEq

/-- Final width and height of an encoded image. -/
structure Dimensions where
  width : Nat
  height : Nat
deriving DecidableEq

/-- Per-request result record.  The JS object is duck-typed (fields are
present or absent per code path); absent fields are `none`, and the
absent `isCached` of failure shapes is modelled as `false`. -/
structure ProcessedResult where
  file : SourceFile
  resizedUrl : Option String
  isResized : Bool
  isCached : Bool
  dimensions : Option Dimensions
  hasTransparency : Option Bool
  outputFormat : Option String
  error : Option String
  message : Option String
deriving DecidableEq

/-- Image metadata as reported by the sharp probe (`sharp(buf).metadata()`). -/
structure ImageMeta where
  channels : Nat
  hasAlpha : Bool
  format : String
  width : Nat
  height : Nat
deriving DecidableEq

/-- Value stored in the NodeCache under a cache key (see the object
literals at src lines 350-356 and 481-487). -/
structure CacheEntry where
  dataUrl : String
  dimensions : Option Dimensions
  hasTransparency : Option Bool
  outputFormat : Option String
  timestamp : Nat
deriving DecidableEq

/-- Sharp background color object produced by `parseBackgroundColor`.
Channels are `Int` because JS `parseInt` can return a negative number
which the `||` default keeps (only falsy 0 / NaN are replaced). -/
structure Rgb where
  r : Int
  g : Int
  b : Int
deriving DecidableEq

/-- Observable external effects of a call: downloader invocations and
`setTimeout` pauses (inter-batch pacing, retry backoff). -/
inductive Event where
  | downloadCall (url : String)
  | wait (ms : Nat)
deriving DecidableEq

/-- Oracles for the effects that leave the process.  `download` models
`downloadImage` (resolved buffer or rejection message), `metadata`
models `sharp(buffer).metadata()`, `resizeRaw` models the sharp
resize/encode pipeline of `resizeImage` up to its catch-wrapper, and
`now` models `Date.now()`. -/
structure Env where
  download : String → Except String (List Nat)
  metadata : List Nat → Except String ImageMeta
  resizeRaw : List Nat → Option Nat → Option Nat → String → Bool → Rgb → Except String (List Nat)
  now : Nat

deriving instance DecidableEq for Except

/-- The in-memory NodeCache content: an association list from key to
entry (insertion point irrelevant to lookup semantics). -/
abbrev Cache := List (String × CacheEntry)

/-- NodeCache `get`: first binding of the key, if any. -/
def cacheGet : Cache → String → Option CacheEntry
  | [], _ => none
  | (k', v) :: t, k => if k' = k then some v else cacheGet t k

/-- NodeCache `del`: drop every binding of the key. -/
def cacheDel (k : String) : Cache → Cache
  | [] => []
  | (k', v) :: t => if k' = k then cacheDel k t else (k', v) :: cacheDel k t

/-- NodeCache `set`: overwrite the binding for the key. -/
def cacheSet (k : String) (v : CacheEntry) (c : Cache) : Cache :=
  (k, v) :: cacheDel k c

/-- NodeCache `keys()`. -/
def cacheKeys (c : Cache) : List String := c.map (fun p => p.1)

/-- UTF-16 code units of one character, as JS `charCodeAt` enumerates
them (a surrogate pair for code points beyond the BMP). -/
def utf16Units (c : Char) : List Nat :=
  if c.toNat < 65536 then [c.toNat]
  else [55296 + (c.toNat - 65536) / 1024, 56320 + (c.toNat - 65536) % 1024]

/-- The UTF-16 code-unit sequence of a string. -/
def jsCharCodes (s : String) : List Nat :=
  s.toList.foldr (fun c acc => utf16Units c ++ acc) []

/-- One step of `hashString`: JS computes `(hash * 33) ^ code` where the
exact product (at most 2^37, so exact in a double) is coerced by ToInt32;
on the unsigned 32-bit pattern this is multiplication mod 2^32 followed
by xor with the code unit. -/
def hashStep (h : Nat) (c : Nat) : Nat :=
  (h * 33) % 4294967296 ^^^ c

/-- The 32-bit hash state of `hashString` after the loop, i.e. the value
of `hash >>> 0` (src lines 66-72). -/
def hash32 (s : String) : Nat :=
  (jsCharCodes s).foldl hashStep 5381

/-- Digit character of `Number.prototype.toString(36)`. -/
def base36Char (d : Nat) : Char :=
  if d < 10 then Char.ofNat (48 + d) else Char.ofNat (87 + d)

/-- Base-36 digit list (most significant first) with explicit fuel;
fuel `n + 1` is always enough since the argument shrinks by /36. -/
def toBase36Core : Nat → Nat → List Char
  | 0, _ => []
  | fuel + 1, n =>
    if n < 36 then [base36Char n]
    else toBase36Core fuel (n / 36) ++ [base36Char (n % 36)]

/-- JS `n.toString(36)` for an unsigned 32-bit value. -/
def toBase36 (n : Nat) : String :=
  String.mk (toBase36Core (n + 1) n)

/-- `hashString` (src lines 66-72): djb2-xor over UTF-16 code units,
rendered in base 36. -/
def hashString (s : String) : String :=
  toBase36 (hash32 s)

/-- Rendering of a target dimension inside the key template literal.
Route handlers pass a positive integer or `null` (imageController.js),
and JS renders `null` as the string `"null"`. -/
def dimStr : Option Nat → String
  | none => "null"
  | some n => toString n

/-- `generateCacheKey` (src lines 56-59). -/
def generateCacheKey (folderName : String) (width height : Option Nat) (imageUrl : String) : String :=
  "resize_" ++ folderName ++ "_" ++ dimStr width ++ "x" ++ dimStr height ++ "_" ++ hashString imageUrl

/-- ASCII lowercase of a string; JS `toLowerCase` agrees on the ASCII
range the service compares against. -/
def toLowerStr (s : String) : String :=
  String.mk (s.toList.map Char.toLower)

/-- Characters after the last dot, or `none` when the string has no dot
(JS `lastIndexOf` returning -1). -/
def extAfterLastDot : List Char → Option (List Char)
  | [] => none
  | c :: t =>
    match extAfterLastDot t with
    | some e => some e
    | none => if c = '.' then some t else none

/-- The fixed allow-list `this.supportedFormats` (src line 26). -/
def supportedFormats : List String :=
  ["jpg", "jpeg", "png", "webp", "gif", "tiff"]

/-- `isSupportedFormat` (src lines 79-84). -/
def isSupportedFormat (url : String) : Bool :=
  match extAfterLastDot url.toList with
  | none => false
  | some ext => supportedFormats.contains (toLowerStr (String.mk ext))

/-- `determineOutputFormat` (src lines 162-172). -/
def determineOutputFormat (originalUrl : String) (hasAlpha : Bool) : String :=
  let originalFormat :=
    match extAfterLastDot originalUrl.toList with
    | some e => toLowerStr (String.mk e)
    | none => "jpg"
  if hasAlpha then
    if originalFormat = "webp" then "webp" else "png"
  else
    if originalFormat = "webp" then "webp" else "jpeg"

/-- `hasTransparency` (src lines 142-154): metadata probe; any rejection
is caught and reported as `false` (treat as opaque). -/
def hasTransparency (env : Env) (imageBuffer : List Nat) : Bool :=
  match env.metadata imageBuffer with
  | .ok m => m.channels == 4 || m.hasAlpha || m.format == "gif"
  | .error _ => false

/-- JS whitespace accepted by `parseInt` before the digits. -/
def jsWhitespace (c : Char) : Bool :=
  c = ' ' || c = '\t' || c = '\n' || c = '\r' || c = '\x0b' || c = '\x0c'

/-- Hex digit test for `parseInt(s, 16)`. -/
def isHexDigitJs (c : Char) : Bool :=
  ('0' ≤ c && c ≤ '9') || ('a' ≤ c && c ≤ 'f') || ('A' ≤ c && c ≤ 'F')

/-- Numeric value of a hex digit. -/
def hexVal (c : Char) : Nat :=
  if c ≤ '9' then c.toNat - 48 else if c ≤ 'F' then c.toNat - 55 else c.toNat - 87

/-- JS `parseInt(s, 16)`: trim leading whitespace, optional sign,
optional 0x/0X marker, then the longest hex-digit run; `none` is NaN. -/
def parseIntHex (s : List Char) : Option Int :=
  let s1 := s.dropWhile jsWhitespace
  let sign : Int := match s1 with
    | '-' :: _ => -1
    | _ => 1
  let s2 : List Char := match s1 with
    | '-' :: t => t
    | '+' :: t => t
    | _ => s1
  let s3 : List Char := match s2 with
    | '0' :: 'x' :: t => t
    | '0' :: 'X' :: t => t
    | _ => s2
  let ds := s3.takeWhile isHexDigitJs
  if ds.isEmpty then none
  else some (sign * (ds.foldl (fun a c => a * 16 + hexVal c) 0 : Nat))

/-- JS `replace('#', '')` with a string pattern: removes the first
occurrence only. -/
def removeFirstHash : List Char → List Char
  | [] => []
  | c :: t => if c = '#' then t else c :: removeFirstHash t

/-- Falsy-default of `parseInt(...) || 255`: NaN, 0 and -0 are falsy and
become 255; any other value (including negatives) is kept. -/
def orDefault255 : Option Int → Int
  | none => 255
  | some v => if v = 0 then 255 else v

/-- `parseBackgroundColor` (src lines 498-504). -/
def parseBackgroundColor (backgroundColor : String) : Rgb :=
  let hex := removeFirstHash backgroundColor.toList
  { r := orDefault255 (parseIntHex (hex.take 2))
    g := orDefault255 (parseIntHex ((hex.drop 2).take 2))
    b := orDefault255 (parseIntHex ((hex.drop 4).take 2)) }

/-- `getMimeTypeForFormat` (src lines 511-521). -/
def getMimeTypeForFormat (format : String) : String :=
  let f := toLowerStr format
  if f = "jpg" then "image/jpeg"
  else if f = "jpeg" then "image/jpeg"
  else if f = "png" then "image/png"
  else if f = "webp" then "image/webp"
  else if f = "gif" then "image/gif"
  else if f = "tiff" then "image/tiff"
  else "image/jpeg"

/-- Standard base64 alphabet used by `Buffer.toString` with base64. -/
def base64Alphabet : List Char :=
  "ABCDEFGHIJKLMNOPQRSTUVWXYZabcdefghijklmnopqrstuvwxyz0123456789+/".toList

/-- Base64 digit character. -/
def b64c (n : Nat) : Char :=
  base64Alphabet.getD n 'A'

/-- Base64 encoding of a byte list with padding, three bytes at a time. -/
def base64Encode : List Nat → List Char
  | [] => []
  | [a] => [b64c (a / 4), b64c (a % 4 * 16), '=', '=']
  | [a, b] => [b64c (a / 4), b64c (a % 4 * 16 + b / 16), b64c (b % 16 * 4), '=']
  | a :: b :: c :: rest =>
    b64c (a / 4) :: b64c (a % 4 * 16 + b / 16) :: b64c (b % 16 * 4 + c / 64) :: b64c (c % 64) ::
      base64Encode rest

/-- JS `buffer.toString(base64)`. -/
def bufferToBase64 (buf : List Nat) : String :=
  String.mk (base64Encode buf)

/-- `resizeImage` (src lines 184-247): the sharp pipeline is the oracle
`env.resizeRaw`; a rejection is rethrown with the `Resize failed: `
prefix (src line 245). -/
def resizeImage (env : Env) (imageBuffer : List Nat) (width height : Option Nat)
    (format : String) (hasAlpha : Bool) (backgroundColor : String) : Except String (List Nat) :=
  match env.resizeRaw imageBuffer width height format hasAlpha (parseBackgroundColor backgroundColor) with
  | .ok b => .ok b
  | .error e => .error ("Resize failed: " ++ e)

/-- Failure shape of the catch branch of `processSingleImage`
(src lines 291-298): the file fields spread plus nulls and the message. -/
def pipelineFailure (file : SourceFile) (e : String) : ProcessedResult :=
  { file := file, resizedUrl := none, isResized := false, isCached := false,
    dimensions := none, hasTransparency := none, outputFormat := none,
    error := some e, message := none }

/-- Unsupported-format shape (src lines 260-265). -/
def unsupportedResult (file : SourceFile) : ProcessedResult :=
  { file := file, resizedUrl := none, isResized := false, isCached := false,
    dimensions := none, hasTransparency := none, outputFormat := none,
    error := none, message := some "Unsupported format" }

/-- `processSingleImage` (src lines 258-299).  The whole body after the
format check sits in a try/catch whose catch returns the failure shape,
so the function always returns a result; the trace records the single
downloader invocation.  The metadata probe on the resized buffer
(src line 280) reuses the `env.metadata` oracle. -/
def processSingleImage (env : Env) (file : SourceFile) (folderName : String)
    (width height : Option Nat) (backgroundColor : String) : ProcessedResult × List Event :=
  if isSupportedFormat file.fileUrl = false then
    (unsupportedResult file, [])
  else
    match env.download file.fileUrl with
    | .error e => (pipelineFailure file e, [Event.downloadCall file.fileUrl])
    | .ok imageBuffer =>
      let hasAlpha := hasTransparency env imageBuffer
      let outputFormat := determineOutputFormat file.fileUrl hasAlpha
      match resizeImage env imageBuffer width height outputFormat hasAlpha backgroundColor with
      | .error e => (pipelineFailure file e, [Event.downloadCall file.fileUrl])
      | .ok resizedBuffer =>
        match env.metadata resizedBuffer with
        | .error e => (pipelineFailure file e, [Event.downloadCall file.fileUrl])
        | .ok m =>
          ({ file := file,
             resizedUrl := some ("data:" ++ getMimeTypeForFormat outputFormat ++ ";base64," ++ bufferToBase64 resizedBuffer),
             isResized := true, isCached := false,
             dimensions := some { width := m.width, height := m.height },
             hasTransparency := some hasAlpha, outputFormat := some outputFormat,
             error := none, message := none },
           [Event.downloadCall file.fileUrl])

/-- Terminal-failure shape of the retry loop (src lines 428-433). -/
def retryFailure (file : SourceFile) (e : String) : ProcessedResult :=
  { file := file, resizedUrl := none, isResized := false, isCached := false,
    dimensions := none, hasTransparency := none, outputFormat := none,
    error := some e, message := none }

/-- The retry loop of `processSingleImageWithRetry` (src lines 422-439),
generic in the attempt body.  The body returns its event trace together
with either the resolved result or a rejection message; on a rejection
the loop returns the terminal failure when no attempts remain, and
otherwise sleeps `2 ^ attempt` seconds and retries. -/
def retryGo (body : Nat → Except String ProcessedResult × List Event) (file : SourceFile) :
    Nat → Nat → ProcessedResult × List Event
  | attempt, remaining =>
    match body attempt with
    | (.ok r, tr) => (r, tr)
    | (.error e, tr) =>
      match remaining with
      | 0 => (retryFailure file e, tr)
      | rem + 1 =>
        let next := retryGo body file (attempt + 1) rem
        (next.1, tr ++ Event.wait (2 ^ attempt * 1000) :: next.2)

/-- `processSingleImageWithRetry` (src lines 421-440).  The awaited
`processSingleImage` always resolves (its body is wrapped in a
catch-all that converts any pipeline error into a failure result), so
the body handed to the loop is always `Except.ok`. -/
def processSingleImageWithRetry (env : Env) (file : SourceFile) (folderName : String)
    (width height : Option Nat) (backgroundColor : String) (retries : Nat := 2) :
    ProcessedResult × List Event :=
  retryGo
    (fun _ =>
      (Except.ok (processSingleImage env file folderName width height backgroundColor).1,
       (processSingleImage env file folderName width height backgroundColor).2))
    file 0 retries

/-- Cache-hit shape of the folder scan and of `processSingleImageByName`
(src lines 323-331 and 465-473). -/
def hitResult (file : SourceFile) (cachedData : CacheEntry) : ProcessedResult :=
  { file := file, resizedUrl := some cachedData.dataUrl, isResized := true, isCached := true,
    dimensions := cachedData.dimensions, hasTransparency := cachedData.hasTransparency,
    outputFormat := cachedData.outputFormat, error := none, message := none }

/-- Entry written back into the cache from a successful result
(src lines 350-356 and 481-487). -/
def entryOfResult (r : ProcessedResult) (now : Nat) : CacheEntry :=
  { dataUrl := r.resizedUrl.getD "", dimensions := r.dimensions,
    hasTransparency := r.hasTransparency, outputFormat := r.outputFormat, timestamp := now }

/-- Body of `processSingleImageByName` once the target file is found
(src lines 460-490): cache probe unless purging, then the single-item
pipeline with the background color omitted (so the `#ffffff` default
applies downstream), then conditional write-back when
`result.isResized && result.resizedUrl` is truthy. -/
def processFoundImage (env : Env) (cache : Cache) (folderName : String)
    (width height : Option Nat) (purgeCache : Bool) (targetFile : SourceFile) :
    ProcessedResult × Cache × List Event :=
  let cacheKey := generateCacheKey folderName width height targetFile.fileUrl
  let rt := processSingleImage env targetFile folderName width height "#ffffff"
  let processed : ProcessedResult × Cache × List Event :=
    if rt.1.isResized && rt.1.resizedUrl.isSome then
      (rt.1, cacheSet cacheKey (entryOfResult rt.1 env.now) cache, rt.2)
    else
      (rt.1, cache, rt.2)
  if purgeCache then processed
  else
    match cacheGet cache cacheKey with
    | some cachedData => (hitResult targetFile cachedData, cache, [])
    | none => processed

/-- `processSingleImageByName` (src lines 452-491).  The not-found case
is the one raised error; every found path resolves. -/
def processSingleImageByName (env : Env) (cache : Cache) (folderName imageName : String)
    (files : List SourceFile) (width height : Option Nat) (purgeCache : Bool) :
    Except String (ProcessedResult × Cache × List Event) :=
  match files.find? (fun f => f.fileName == imageName) with
  | none => .error ("Image \"" ++ imageName ++ "\" not found in folder \"" ++ folderName ++ "\"")
  | some targetFile => .ok (processFoundImage env cache folderName width height purgeCache targetFile)

/-- First pass of `processFolderImages` (src lines 318-335): split the
files into cache hits (already shaped as results) and files to process;
with the purge flag every file goes to processing. -/
def folderFirstPass (cache : Cache) (folderName : String) (width height : Option Nat)
    (purgeCache : Bool) : List SourceFile → List ProcessedResult × List SourceFile
  | [] => ([], [])
  | f :: fs =>
    let rest := folderFirstPass cache folderName width height purgeCache fs
    if purgeCache then (rest.1, f :: rest.2)
    else
      match cacheGet cache (generateCacheKey folderName width height f.fileUrl) with
      | some cachedData => (hitResult f cachedData :: rest.1, rest.2)
      | none => (rest.1, f :: rest.2)

/-- Batch loop of `processBatches` (src lines 373-409), with fuel equal
to the number of files (each round consumes at least one file when the
batch size is positive).  Every per-item promise settles fulfilled
(`processSingleImageWithRetry` never rejects), so the allSettled
rejected branch (src lines 389-397) is unreachable and the results are
the fulfilled values in order.  The 10 ms pacing wait is emitted
between rounds and skipped after the final round (src lines 403-405). -/
def processBatchesCore (env : Env) (folderName : String) (width height : Option Nat)
    (backgroundColor : String) (batchSize : Nat) : Nat → List SourceFile → List ProcessedResult × List Event
  | 0, _ => ([], [])
  | fuel + 1, files =>
    if files.isEmpty then ([], [])
    else
      let batch := files.take batchSize
      let rest := files.drop batchSize
      let batchResults := batch.map
        (fun f => processSingleImageWithRetry env f folderName width height backgroundColor 2)
      let pacing : List Event := if rest.isEmpty then [] else [Event.wait 10]
      let more := processBatchesCore env folderName width height backgroundColor batchSize fuel rest
      (batchResults.map (fun p => p.1) ++ more.1,
       (batchResults.map (fun p => p.2)).foldr (fun a b => a ++ b) [] ++ pacing ++ more.2)

/-- `processBatches` (src lines 373-409). -/
def processBatches (env : Env) (files : List SourceFile) (folderName : String)
    (width height : Option Nat) (backgroundColor : String) (batchSize : Nat) :
    List ProcessedResult × List Event :=
  processBatchesCore env folderName width height backgroundColor batchSize files.length files

/-- Write-back loop of `processFolderImages` (src lines 347-359): each
result with `isResized && resizedUrl` truthy is cached under the key of
its fileUrl. -/
def cacheMissResults (folderName : String) (width height : Option Nat) (now : Nat) :
    Cache → List ProcessedResult → Cache
  | cache, [] => cache
  | cache, r :: rs =>
    let cache1 :=
      if r.isResized && r.resizedUrl.isSome then
        cacheSet (generateCacheKey folderName width height r.file.fileUrl) (entryOfResult r now) cache
      else cache
    cacheMissResults folderName width height now cache1 rs

/-- `processFolderImages` (src lines 311-362): cache scan, early return
when nothing is left to process, batch processing of the misses,
write-back of successes, and hits-then-misses concatenation. -/
def processFolderImages (env : Env) (cache : Cache) (files : List SourceFile)
    (folderName : String) (width height : Option Nat) (purgeCache : Bool)
    (backgroundColor : String) (batchSize : Nat) :
    List ProcessedResult × Cache × List Event :=
  let firstPass := folderFirstPass cache folderName width height purgeCache files
  if firstPass.2.isEmpty then (firstPass.1, cache, [])
  else
    let batched := processBatches env firstPass.2 folderName width height backgroundColor batchSize
    (firstPass.1 ++ batched.1,
     cacheMissResults folderName width height env.now cache batched.1,
     batched.2)

/-- Decidable substring occurrence on character lists (JS `includes`). -/
def hasSub : List Char → List Char → Bool
  | hay, sub =>
    match hay with
    | [] => sub.isEmpty
    | _ :: t => sub.isPrefixOf hay || hasSub t sub

/-- JS `String.prototype.includes`. -/
def strIncludes (s sub : String) : Bool :=
  hasSub s.toList sub.toList

/-- `clearFolderCache` (src lines 527-533): select the keys containing
`resize_<folderName>_` and delete each of them. -/
def clearFolderCache (folderName : String) (cache : Cache) : Cache :=
  let folderKeys := (cacheKeys cache).filter (fun k => strIncludes k ("resize_" ++ folderName ++ "_"))
  folderKeys.foldl (fun c k => cacheDel k c) cache

/-- Mutable state of an `ImageResizeService` instance that its methods
can reach; the cache is the only piece the key and cache methods touch. -/
structure ServiceState where
  cache : Cache

/-- `generateCacheKey` as the instance method: it receives the service
state but neither reads nor writes it (its body only calls
`hashString` on its arguments). -/
def generateCacheKeyM (s : ServiceState) (folderName : String) (width height : Option Nat)
    (imageUrl : String) : String × ServiceState :=
  (generateCacheKey folderName width height imageUrl, s)

/-- Alpha-capable output formats in the sense of the specification text
for the format-selection claim: among the output formats the service
produces, png and webp carry an alpha channel. -/
def supportsAlpha (fmt : String) : Bool :=
  fmt = "png" || fmt = "webp"

/-- The format selection exactly as the claim words it (for comparison
with `determineOutputFormat`): with transparency take the extension
candidate when it is alpha-capable and otherwise the default
alpha-capable format png; when opaque take the extension candidate
unless it is non-alpha-capable, in which case the default non-alpha
format jpeg. -/
def determineOutputFormatClaim (originalUrl : String) (hasAlpha : Bool) : String :=
  let candidate :=
    match extAfterLastDot originalUrl.toList with
    | some e => toLowerStr (String.mk e)
    | none => "jpg"
  if hasAlpha then
    if supportsAlpha candidate then candidate else "png"
  else
    if supportsAlpha candidate = false then "jpeg" else candidate

/-- The format selection as amended to match the code: the opaque branch
keeps only webp and forces every other candidate to jpeg, even the
alpha-capable png. -/
def determineOutputFormatAmended (originalUrl : String) (hasAlpha : Bool) : String :=
  let candidate :=
    match extAfterLastDot originalUrl.toList with
    | some e => toLowerStr (String.mk e)
    | none => "jpg"
  if hasAlpha then
    if supportsAlpha candidate then candidate else "png"
  else
    if candidate = "webp" then "webp" else "jpeg"

/-- Concrete file fixture used by the closed witness instances. -/
def wFile : SourceFile :=
  { fileName := "a.png", fileUrl := "http://x/a.png" }

/-- Environment fixture whose downloads always fail. -/
def envDown : Env :=
  { download := fun _ => .error "network down"
    metadata := fun _ => .ok { channels := 3, hasAlpha := false, format := "jpeg", width := 1, height := 1 }
    resizeRaw := fun b _ _ _ _ _ => .ok b
    now := 0 }

/-- Environment fixture whose whole pipeline succeeds (the resized
buffer is empty so its base64 payload is empty). -/
def envOk : Env :=
  { download := fun _ => .ok [7]
    metadata := fun _ => .ok { channels := 3, hasAlpha := false, format := "jpeg", width := 10, height := 20 }
    resizeRaw := fun _ _ _ _ _ _ => .ok []
    now := 0 }

/-- Environment fixture whose metadata probe always fails. -/
def envBadMeta : Env :=
  { download := fun _ => .ok [7]
    metadata := fun _ => .error "corrupt"
    resizeRaw := fun b _ _ _ _ _ => .ok b
    now := 0 }

/-- Pre-existing cache entry fixture. -/
def wOldEntry : CacheEntry :=
  { dataUrl := "data:old", dimensions := some { width := 5, height := 6 },
    hasTransparency := some false, outputFormat := some "jpeg", timestamp := 0 }

/-- Cache fixture holding `wOldEntry` under the key of `wFile`. -/
def wCache : Cache :=
  [(generateCacheKey "f" (some 100) none "http://x/a.png", wOldEntry)]

/-- The result of the first (cache-missing) call of the round-trip
witness under `envOk`. -/
def c2r1 : ProcessedResult :=
  { file := wFile, resizedUrl := some "data:image/jpeg;base64,", isResized := true,
    isCached := false, dimensions := some { width := 10, height := 20 },
    hasTransparency := some false, outputFormat := some "jpeg", error := none, message := none }

/-- The cache produced by that first call. -/
def c2Cache1 : Cache :=
  [(generateCacheKey "f" (some 100) none "http://x/a.png", entryOfResult c2r1 0)]

/-- Minimal cache entry fixture for the folder-eviction instances. -/
def c8Entry : CacheEntry :=
  { dataUrl := "d", dimensions := none, hasTransparency := none,
    outputFormat := none, timestamp := 0 }

/-- Appending on the left of a fixed string is injective. -/
theorem string_append_right_inj (a b c : String) : a ++ b = a ++ c ↔ b = c := by
  constructor
  · intro h
    have h2 : a.data ++ b.data = a.data ++ c.data := congrArg String.data h
    have h3 : b.data = c.data := List.append_cancel_left h2
    cases b
    cases c
    exact congrArg String.mk h3
  · intro h; rw [h]

/-- C3: generateCacheKey is a pure deterministic function of the tuple
(folderName, width, height, imageUrl): evaluated as the instance method
it neither reads nor writes the mutable service state, so any two
evaluations, under any two states, return the same key string. -/
theorem generateCacheKey_deterministic_stateless :
    ∀ (s1 s2 : ServiceState) (folder : String) (w h : Option Nat) (url : String),
      (generateCacheKeyM s1 folder w h url).1 = (generateCacheKeyM s2 folder w h url).1 ∧
      (generateCacheKeyM s1 folder w h url).2 = s1 ∧
      (generateCacheKeyM s1 folder w h url).1 = generateCacheKey folder w h url := by
  intro s1 s2 folder w h url
  exact ⟨rfl, rfl, rfl⟩

/-- C4 counterexample: two distinct URLs whose 32-bit djb2-xor hashes
collide, so the full cache keys coincide for an identical
(folder, width, height). -/
theorem generateCacheKey_collision :
    generateCacheKey "demo" (some 100) (some 100) "http://img/aajbcaA.png" =
      generateCacheKey "demo" (some 100) (some 100) "http://img/aajbcbb.png" ∧
    ("http://img/aajbcaA.png" : String) ≠ "http://img/aajbcbb.png" := by
  constructor
  · decide
  · decide

/-- C4 amended: for a fixed (folder, width, height), two URLs receive
the same cache key exactly when hashString collides on them; the keys
separate URLs only up to the 32-bit hash, and hash collisions exist. -/
theorem generateCacheKey_eq_iff_hash_eq (folder : String) (w h : Option Nat) (u1 u2 : String) :
    generateCacheKey folder w h u1 = generateCacheKey folder w h u2 ↔
      hashString u1 = hashString u2 := by
  unfold generateCacheKey
  exact string_append_right_inj _ _ _

/-- C6 counterexample: for an opaque image from a png URL the claim
selects png (the extension format, which is alpha-capable), but the
code selects jpeg. -/
theorem determineOutputFormat_png_opaque :
    determineOutputFormat "a.png" false = "jpeg" ∧
    determineOutputFormatClaim "a.png" false = "png" ∧
    determineOutputFormat "a.png" false ≠ determineOutputFormatClaim "a.png" false := by
  refine ⟨by decide, by decide, by decide⟩

/-- C6 amended: the code agrees everywhere with the claim whose opaque
branch keeps only webp and forces every other candidate (even the
alpha-capable png) to jpeg; the transparent branch is as claimed. -/
theorem determineOutputFormat_eq_amended (url : String) (hasAlpha : Bool) :
    determineOutputFormat url hasAlpha = determineOutputFormatAmended url hasAlpha := by
  unfold determineOutputFormat determineOutputFormatAmended supportsAlpha
  cases hasAlpha with
  | false => simp
  | true =>
    set fmt := (match extAfterLastDot url.toList with
      | some e => toLowerStr (String.mk e)
      | none => "jpg") with hf
    by_cases h1 : fmt = "webp"
    · simp [h1]
    · by_cases h2 : fmt = "png" <;> simp [h1, h2]

/-- C9: hasTransparency is total, and whenever the metadata probe fails
it reports the image as opaque (false) instead of propagating. -/
theorem hasTransparency_false_on_error (env : Env) (buf : List Nat) (e : String)
    (herr : env.metadata buf = .error e) : hasTransparency env buf = false := by
  unfold hasTransparency
  rw [herr]

/-- C9 witness: a concrete corrupt buffer under `envBadMeta`. -/
theorem hasTransparency_false_on_error_witness :
    envBadMeta.metadata [0] = Except.error "corrupt" ∧ hasTransparency envBadMeta [0] = false :=
  ⟨rfl, hasTransparency_false_on_error envBadMeta [0] "corrupt" rfl⟩

/-- Helper: the falsy default of the color parser never returns 0. -/
theorem orDefault255_ne_zero (v : Option Int) : orDefault255 v ≠ 0 := by
  unfold orDefault255
  cases v with
  | none => decide
  | some x =>
    by_cases hx : x = 0
    · simp [hx]
    · simp [hx]

/-- C10: a channel whose two hex digits parse to 0 comes out as 255
(so black backgrounds flatten as white), and no channel of the parsed
color is ever 0. -/
theorem parseBackgroundColor_zero_becomes_255 (s : String) :
    ((parseBackgroundColor s).r ≠ 0 ∧ (parseBackgroundColor s).g ≠ 0 ∧ (parseBackgroundColor s).b ≠ 0) ∧
    (parseIntHex ((removeFirstHash s.toList).take 2) = some 0 → (parseBackgroundColor s).r = 255) ∧
    (parseIntHex (((removeFirstHash s.toList).drop 2).take 2) = some 0 → (parseBackgroundColor s).g = 255) ∧
    (parseIntHex (((removeFirstHash s.toList).drop 4).take 2) = some 0 → (parseBackgroundColor s).b = 255) := by
  unfold parseBackgroundColor
  refine ⟨⟨orDefault255_ne_zero _, orDefault255_ne_zero _, orDefault255_ne_zero _⟩, ?_, ?_, ?_⟩
  · intro h
    simp only [h]
    rfl
  · intro h
    simp only [h]
    rfl
  · intro h
    simp only [h]
    rfl

/-- C10 witness: the black background literal. -/
theorem parseBackgroundColor_black_witness :
    parseIntHex ((removeFirstHash "#000000".toList).take 2) = some 0 ∧
    (parseBackgroundColor "#000000").r = 255 ∧
    (parseBackgroundColor "#000000").r ≠ 0 :=
  ⟨by decide,
   (parseBackgroundColor_zero_becomes_255 "#000000").2.1 (by decide),
   (parseBackgroundColor_zero_becomes_255 "#000000").1.1⟩

/-- C5: on a file whose download fails on every attempt, the retry
wrapper performs exactly one pipeline attempt (one downloader call) and
no backoff wait, returning the absorbed failure immediately: the inner
catch of `processSingleImage` converts the failure into a resolved
result, so the retry loop never observes a rejection. -/
theorem processSingleImageWithRetry_single_attempt :
    processSingleImageWithRetry envDown wFile "folder" (some 100) none "#ffffff" 2 =
      (pipelineFailure wFile "network down", [Event.downloadCall "http://x/a.png"]) := by
  decide

/-- A list is a `isPrefixOf`-prefix of itself followed by anything. -/
theorem isPrefixOf_self_append (p r : List Char) : List.isPrefixOf p (p ++ r) = true := by
  induction p with
  | nil => simp
  | cons a t ih => simpa using ih

/-- `hasSub` finds a prefix occurrence. -/
theorem hasSub_self_append (p r : List Char) : hasSub (p ++ r) p = true := by
  cases p with
  | nil =>
    cases r with
    | nil => rfl
    | cons c t => simp [hasSub, List.isPrefixOf]
  | cons a t =>
    unfold hasSub
    simp [isPrefixOf_self_append]

/-- Every generated key contains the folder marker searched by
`clearFolderCache`. -/
theorem strIncludes_generateCacheKey (f : String) (w h : Option Nat) (u : String) :
    strIncludes (generateCacheKey f w h u) ("resize_" ++ f ++ "_") = true := by
  unfold strIncludes generateCacheKey
  have hsplit :
      ("resize_" ++ f ++ "_" ++ dimStr w ++ "x" ++ dimStr h ++ "_" ++ hashString u).toList
        = ("resize_" ++ f ++ "_").toList
            ++ ((dimStr w).toList ++ "x".toList ++ (dimStr h).toList ++ "_".toList ++ (hashString u).toList) := by
    show ("resize_".data ++ f.data ++ "_".data ++ (dimStr w).data ++ "x".data ++ (dimStr h).data ++ "_".data ++ (hashString u).data : List Char) = _
    simp [List.append_assoc]
  rw [hsplit]
  exact hasSub_self_append _ _

/-- Lookup after a single key deletion. -/
theorem cacheGet_del (a k : String) (c : Cache) :
    cacheGet (cacheDel a c) k = if a = k then none else cacheGet c k := by
  induction c with
  | nil =>
    simp only [cacheDel, cacheGet]
    split <;> rfl
  | cons p t ih =>
    obtain ⟨k1, v⟩ := p
    simp only [cacheDel, cacheGet]
    by_cases h1 : k1 = a
    · subst h1
      rw [if_pos rfl, ih]
      by_cases h2 : k1 = k <;> simp [h2]
    · rw [if_neg h1]
      simp only [cacheGet]
      by_cases h2 : k1 = k
      · subst h2
        have hak : ¬a = k1 := fun h3 => h1 h3.symm
        simp [hak]
      · simp [h2, ih]

/-- Lookup after folding deletions over a list of keys. -/
theorem cacheGet_foldl_del (ks : List String) (c : Cache) (k : String) :
    cacheGet (ks.foldl (fun acc kk => cacheDel kk acc) c) k =
      if k ∈ ks then none else cacheGet c k := by
  induction ks generalizing c with
  | nil => simp
  | cons a t ih =>
    simp only [List.foldl_cons]
    rw [ih]
    by_cases hk : k ∈ t
    · simp [hk]
    · rw [if_neg hk, cacheGet_del]
      by_cases ha : a = k
      · simp [ha, List.mem_cons]
      · have hka : ¬k = a := fun h3 => ha h3.symm
        simp [List.mem_cons, hk, ha, hka]

/-- A key with a stored entry occurs among the cache keys. -/
theorem get_some_mem_keys (c : Cache) (k : String) (v : CacheEntry)
    (h : cacheGet c k = some v) : k ∈ cacheKeys c := by
  induction c with
  | nil => simp [cacheGet] at h
  | cons p t ih =>
    obtain ⟨k1, v1⟩ := p
    simp only [cacheGet] at h
    by_cases h1 : k1 = k
    · simp [cacheKeys, h1]
    · rw [if_neg h1] at h
      simp only [cacheKeys, List.map_cons, List.mem_cons]
      exact Or.inr (ih h)

/-- C8 amended: clearFolderCache removes exactly the entries whose key
contains the substring `resize_<folderName>_`; this covers every key
generated for that folder, and leaves every key not containing the
marker untouched — but the match is substring-based, not a parse of the
key, so keys of other folders can also be removed
(see the counterexample). -/
theorem clearFolderCache_spec (folderName : String) (cache : Cache) :
    (∀ w h u, cacheGet (clearFolderCache folderName cache) (generateCacheKey folderName w h u) = none) ∧
    (∀ k, strIncludes k ("resize_" ++ folderName ++ "_") = false →
      cacheGet (clearFolderCache folderName cache) k = cacheGet cache k) := by
  simp only [clearFolderCache]
  constructor
  · intro w h u
    rw [cacheGet_foldl_del]
    cases hget : cacheGet cache (generateCacheKey folderName w h u) with
    | none => simp [hget]
    | some v =>
      have hmem : generateCacheKey folderName w h u ∈
          (cacheKeys cache).filter (fun kk => strIncludes kk ("resize_" ++ folderName ++ "_")) :=
        List.mem_filter.mpr ⟨get_some_mem_keys cache _ v hget, strIncludes_generateCacheKey folderName w h u⟩
      simp [hmem]
  · intro k hns
    rw [cacheGet_foldl_del]
    have hnm : ¬k ∈ (cacheKeys cache).filter (fun kk => strIncludes kk ("resize_" ++ folderName ++ "_")) := by
      intro hmem
      have h2 := (List.mem_filter.mp hmem).2
      simp [hns] at h2
    simp [hnm]

/-- C8 counterexample: an entry generated for the distinct folder
`a_1x1` is also evicted by clearing folder `a`, because its key
contains the marker `resize_a_` as a substring. -/
theorem clearFolderCache_cross_folder_eviction :
    clearFolderCache "a" [(generateCacheKey "a_1x1" (some 1) (some 1) "u", c8Entry)] = [] ∧
    ("a_1x1" : String) ≠ "a" := by
  constructor
  · decide
  · decide

/-- C8 witness: a folder key is gone after the clear, and an unrelated
key without the marker keeps its lookup result. -/
theorem clearFolderCache_spec_witness :
    cacheGet (clearFolderCache "a" [("zzz", c8Entry)]) (generateCacheKey "a" (some 1) (some 2) "u") = none ∧
    strIncludes "zzz" ("resize_" ++ "a" ++ "_") = false ∧
    cacheGet (clearFolderCache "a" [("zzz", c8Entry)]) "zzz" = cacheGet [("zzz", c8Entry)] "zzz" :=
  ⟨(clearFolderCache_spec "a" [("zzz", c8Entry)]).1 (some 1) (some 2) "u",
   by decide,
   (clearFolderCache_spec "a" [("zzz", c8Entry)]).2 "zzz" (by decide)⟩

/-- The single-item pipeline always resolves, and its result is either
a success or an absorbed failure carrying an error or a message. -/
theorem processSingleImage_shape (env : Env) (file : SourceFile) (folder : String)
    (w h : Option Nat) (bg : String) :
    (processSingleImage env file folder w h bg).1.isResized = true ∨
    ((processSingleImage env file folder w h bg).1.resizedUrl = none ∧
      ((processSingleImage env file folder w h bg).1.error.isSome = true ∨
       (processSingleImage env file folder w h bg).1.message.isSome = true)) := by
  unfold processSingleImage
  split
  · simp [unsupportedResult]
  · split
    · simp [pipelineFailure]
    · dsimp only
      split
      · simp [pipelineFailure]
      · split
        · simp [pipelineFailure]
        · simp

/-- With a supported URL the pipeline performs exactly one downloader
invocation, in every outcome. -/
theorem processSingleImage_trace (env : Env) (file : SourceFile) (folder : String)
    (w h : Option Nat) (bg : String) (hsup : isSupportedFormat file.fileUrl = true) :
    (processSingleImage env file folder w h bg).2 = [Event.downloadCall file.fileUrl] := by
  unfold processSingleImage
  split
  · next hcond => simp [hsup] at hcond
  · split
    · rfl
    · dsimp only
      split
      · rfl
      · split
        · rfl
        · rfl

/-- The retry wrapper returns the first (and only) attempt unchanged:
its body always resolves. -/
theorem processSingleImageWithRetry_eq (env : Env) (file : SourceFile) (folder : String)
    (w h : Option Nat) (bg : String) (retries : Nat) :
    processSingleImageWithRetry env file folder w h bg retries =
      processSingleImage env file folder w h bg := by
  cases retries with
  | zero => rfl
  | succ n => rfl

/-- The batch loop yields one result per input file (with positive
batch size and enough fuel). -/
theorem processBatchesCore_length (env : Env) (folder : String) (w h : Option Nat)
    (bg : String) (bs : Nat) (hbs : 1 ≤ bs) :
    ∀ fuel files, files.length ≤ fuel →
      ((processBatchesCore env folder w h bg bs fuel files).1).length = files.length := by
  intro fuel
  induction fuel with
  | zero =>
    intro files hf
    have h0 : files = [] := List.eq_nil_of_length_eq_zero (Nat.le_zero.mp hf)
    subst h0
    rfl
  | succ n ih =>
    intro files hf
    cases files with
    | nil => rfl
    | cons f fs =>
      simp only [processBatchesCore, List.isEmpty_cons, Bool.false_eq_true, if_false]
      rw [List.length_append, List.length_map, List.length_map, List.length_take]
      have hlen : (List.drop bs (f :: fs)).length ≤ n := by
        rw [List.length_drop]
        simp only [List.length_cons] at hf ⊢
        omega
      rw [ih _ hlen, List.length_drop]
      simp only [List.length_cons]
      omega

/-- Every result of the batch loop comes from the single-item pipeline
(via the retry wrapper), hence is a success or an absorbed failure. -/
theorem processBatchesCore_mem (env : Env) (folder : String) (w h : Option Nat)
    (bg : String) (bs : Nat) :
    ∀ fuel files r, r ∈ (processBatchesCore env folder w h bg bs fuel files).1 →
      r.isResized = true ∨ (r.resizedUrl = none ∧ (r.error.isSome = true ∨ r.message.isSome = true)) := by
  intro fuel
  induction fuel with
  | zero =>
    intro files r hr
    simp [processBatchesCore] at hr
  | succ n ih =>
    intro files r hr
    cases files with
    | nil => simp [processBatchesCore] at hr
    | cons f fs =>
      simp only [processBatchesCore, List.isEmpty_cons, Bool.false_eq_true, if_false] at hr
      rw [List.mem_append] at hr
      cases hr with
      | inl hm =>
        rw [List.mem_map] at hm
        obtain ⟨p, hp, hpe⟩ := hm
        rw [List.mem_map] at hp
        obtain ⟨f2, hf2, hfe⟩ := hp
        subst hpe
        rw [← hfe, processSingleImageWithRetry_eq]
        exact processSingleImage_shape env f2 folder w h bg
      | inr hm => exact ih _ r hm

/-- The first pass splits the folder without losing or duplicating
entries. -/
theorem folderFirstPass_length (cache : Cache) (folder : String) (w h : Option Nat)
    (purge : Bool) (files : List SourceFile) :
    (folderFirstPass cache folder w h purge files).1.length +
      (folderFirstPass cache folder w h purge files).2.length = files.length := by
  induction files with
  | nil => rfl
  | cons f fs ih =>
    simp only [folderFirstPass]
    cases purge with
    | true =>
      simp only [if_true]
      simp only [List.length_cons]
      omega
    | false =>
      simp only [Bool.false_eq_true, if_false]
      cases hget : cacheGet cache (generateCacheKey folder w h f.fileUrl) with
      | some cd =>
        simp only [List.length_cons]
        omega
      | none =>
        simp only [List.length_cons]
        omega

/-- Every cache hit of the first pass is shaped as a resized result. -/
theorem folderFirstPass_hits (cache : Cache) (folder : String) (w h : Option Nat)
    (purge : Bool) :
    ∀ files r, r ∈ (folderFirstPass cache folder w h purge files).1 → r.isResized = true := by
  intro files
  induction files with
  | nil =>
    intro r hr
    simp [folderFirstPass] at hr
  | cons f fs ih =>
    intro r hr
    simp only [folderFirstPass] at hr
    cases purge with
    | true =>
      simp only [if_true] at hr
      exact ih r hr
    | false =>
      simp only [Bool.false_eq_true, if_false] at hr
      revert hr
      cases hget : cacheGet cache (generateCacheKey folder w h f.fileUrl) with
      | some cd =>
        intro hr
        rw [List.mem_cons] at hr
        cases hr with
        | inl he => rw [he]; rfl
        | inr hm => exact ih r hm
      | none =>
        intro hr
        exact ih r hr

/-- C1: a folder request over N files yields exactly N results (and the
batch layer yields one result per requested file); the function is
total — per-item failures are absorbed into result records that carry
an error or message instead of being raised. -/
theorem processFolderImages_complete (env : Env) (cache : Cache) (files : List SourceFile)
    (folderName : String) (w h : Option Nat) (purge : Bool) (bg : String) (batchSize : Nat)
    (hbs : 1 ≤ batchSize) :
    ((processFolderImages env cache files folderName w h purge bg batchSize).1.length = files.length) ∧
    ((processBatches env files folderName w h bg batchSize).1.length = files.length) ∧
    (∀ r ∈ (processFolderImages env cache files folderName w h purge bg batchSize).1,
      r.isResized = true ∨ (r.resizedUrl = none ∧ (r.error.isSome = true ∨ r.message.isSome = true))) := by
  have hbatch : ∀ fs : List SourceFile,
      ((processBatches env fs folderName w h bg batchSize).1).length = fs.length := fun fs =>
    processBatchesCore_length env folderName w h bg batchSize hbs fs.length fs (Nat.le_refl _)
  have hsplit := folderFirstPass_length cache folderName w h purge files
  refine ⟨?_, hbatch files, ?_⟩
  · simp only [processFolderImages]
    by_cases hemp : (folderFirstPass cache folderName w h purge files).2.isEmpty = true
    · rw [if_pos hemp]
      dsimp only
      have h0 : (folderFirstPass cache folderName w h purge files).2 = [] :=
        List.isEmpty_iff.mp hemp
      rw [h0, List.length_nil] at hsplit
      omega
    · rw [if_neg hemp]
      dsimp only
      rw [List.length_append, hbatch]
      omega
  · intro r hr
    simp only [processFolderImages] at hr
    by_cases hemp : (folderFirstPass cache folderName w h purge files).2.isEmpty = true
    · rw [if_pos hemp] at hr
      dsimp only at hr
      exact Or.inl (folderFirstPass_hits cache folderName w h purge files r hr)
    · rw [if_neg hemp] at hr
      dsimp only at hr
      rw [List.mem_append] at hr
      cases hr with
      | inl hm => exact Or.inl (folderFirstPass_hits cache folderName w h purge files r hm)
      | inr hm =>
        exact processBatchesCore_mem env folderName w h bg batchSize _ _ r hm

/-- C1 witness: a concrete one-file folder whose download fails still
yields one (absorbed-failure) result. -/
theorem processFolderImages_complete_witness :
    1 ≤ 10 ∧
    (((processFolderImages envDown [] [wFile] "f" (some 100) none false "#ffffff" 10).1.length =
        ([wFile] : List SourceFile).length) ∧
      ((processBatches envDown [wFile] "f" (some 100) none "#ffffff" 10).1.length =
        ([wFile] : List SourceFile).length) ∧
      (∀ r ∈ (processFolderImages envDown [] [wFile] "f" (some 100) none false "#ffffff" 10).1,
        r.isResized = true ∨ (r.resizedUrl = none ∧ (r.error.isSome = true ∨ r.message.isSome = true)))) :=
  ⟨by decide, processFolderImages_complete envDown [] [wFile] "f" (some 100) none false "#ffffff" 10 (by decide)⟩

/-- Lookup immediately after a set returns the freshly stored entry. -/
theorem cacheGet_set_self (k : String) (v : CacheEntry) (c : Cache) :
    cacheGet (cacheSet k v c) k = some v := by
  simp [cacheSet, cacheGet]

/-- On a cache hit without purge, the found-file body serves the entry
with an empty trace and an unchanged cache. -/
theorem processFoundImage_hit (env : Env) (cache : Cache) (folder : String)
    (w h : Option Nat) (tf : SourceFile) (cd : CacheEntry)
    (hget : cacheGet cache (generateCacheKey folder w h tf.fileUrl) = some cd) :
    processFoundImage env cache folder w h false tf = (hitResult tf cd, cache, []) := by
  simp only [processFoundImage, Bool.false_eq_true, if_false, hget]

/-- On a cache miss without purge, the found-file body runs the
pipeline and conditionally writes back. -/
theorem processFoundImage_miss (env : Env) (cache : Cache) (folder : String)
    (w h : Option Nat) (tf : SourceFile)
    (hget : cacheGet cache (generateCacheKey folder w h tf.fileUrl) = none) :
    processFoundImage env cache folder w h false tf =
      (if (processSingleImage env tf folder w h "#ffffff").1.isResized &&
          (processSingleImage env tf folder w h "#ffffff").1.resizedUrl.isSome then
        ((processSingleImage env tf folder w h "#ffffff").1,
         cacheSet (generateCacheKey folder w h tf.fileUrl)
           (entryOfResult (processSingleImage env tf folder w h "#ffffff").1 env.now) cache,
         (processSingleImage env tf folder w h "#ffffff").2)
      else
        ((processSingleImage env tf folder w h "#ffffff").1, cache,
         (processSingleImage env tf folder w h "#ffffff").2)) := by
  simp only [processFoundImage, Bool.false_eq_true, if_false, hget]

/-- With the purge flag the found-file body skips the cache probe and
always runs the pipeline. -/
theorem processFoundImage_purge (env : Env) (cache : Cache) (folder : String)
    (w h : Option Nat) (tf : SourceFile) :
    processFoundImage env cache folder w h true tf =
      (if (processSingleImage env tf folder w h "#ffffff").1.isResized &&
          (processSingleImage env tf folder w h "#ffffff").1.resizedUrl.isSome then
        ((processSingleImage env tf folder w h "#ffffff").1,
         cacheSet (generateCacheKey folder w h tf.fileUrl)
           (entryOfResult (processSingleImage env tf folder w h "#ffffff").1 env.now) cache,
         (processSingleImage env tf folder w h "#ffffff").2)
      else
        ((processSingleImage env tf folder w h "#ffffff").1, cache,
         (processSingleImage env tf folder w h "#ffffff").2)) := rfl

/-- C2: after a first by-name call that performed a fresh successful
resize, a second call with the same parameters (under any environment,
so in particular without invoking the downloader: its trace is empty)
serves the cached entry: isCached is true and dimensions and
outputFormat equal those of the first result; the cache is unchanged. -/
theorem processSingleImageByName_roundtrip (env env2 : Env) (cache : Cache)
    (folderName imageName : String) (files : List SourceFile) (w h : Option Nat)
    (r1 : ProcessedResult) (cache1 : Cache) (tr1 : List Event)
    (hfirst : processSingleImageByName env cache folderName imageName files w h false =
      .ok (r1, cache1, tr1))
    (hfresh : r1.isCached = false) (hok : r1.isResized = true)
    (hurl : r1.resizedUrl.isSome = true) :
    ∃ r2, processSingleImageByName env2 cache1 folderName imageName files w h false =
        .ok (r2, cache1, []) ∧ r2.isCached = true ∧ r2.dimensions = r1.dimensions ∧
        r2.outputFormat = r1.outputFormat := by
  unfold processSingleImageByName at hfirst ⊢
  cases hfind : files.find? (fun f => f.fileName == imageName) with
  | none =>
    rw [hfind] at hfirst
    dsimp only at hfirst
    exact Except.noConfusion hfirst
  | some tf =>
    rw [hfind] at hfirst
    dsimp only at hfirst
    injection hfirst with hpf
    cases hget : cacheGet cache (generateCacheKey folderName w h tf.fileUrl) with
    | some cd =>
      rw [processFoundImage_hit env cache folderName w h tf cd hget] at hpf
      have h1 : hitResult tf cd = r1 := congrArg Prod.fst hpf
      rw [← h1] at hfresh
      simp [hitResult] at hfresh
    | none =>
      rw [processFoundImage_miss env cache folderName w h tf hget] at hpf
      by_cases hcond : ((processSingleImage env tf folderName w h "#ffffff").1.isResized &&
          (processSingleImage env tf folderName w h "#ffffff").1.resizedUrl.isSome) = true
      · rw [if_pos hcond] at hpf
        rw [Prod.mk.injEq, Prod.mk.injEq] at hpf
        obtain ⟨h1, h2, h3⟩ := hpf
        dsimp only
        refine ⟨hitResult tf (entryOfResult (processSingleImage env tf folderName w h "#ffffff").1 env.now), ?_, rfl, ?_, ?_⟩
        · have hget1 : cacheGet cache1 (generateCacheKey folderName w h tf.fileUrl) =
              some (entryOfResult (processSingleImage env tf folderName w h "#ffffff").1 env.now) := by
            rw [← h2]
            exact cacheGet_set_self _ _ _
          rw [processFoundImage_hit env2 cache1 folderName w h tf _ hget1]
        · rw [← h1]
          rfl
        · rw [← h1]
          rfl
      · rw [if_neg hcond] at hpf
        have h1 : (processSingleImage env tf folderName w h "#ffffff").1 = r1 :=
          congrArg Prod.fst hpf
        rw [h1] at hcond
        simp [hok, hurl] at hcond

/-- C2 witness: a concrete successful first call under `envOk`, then
the second call served from cache with an empty trace. -/
theorem processSingleImageByName_roundtrip_witness :
    ∃ r2, processSingleImageByName envOk c2Cache1 "f" "a.png" [wFile] (some 100) none false =
        .ok (r2, c2Cache1, []) ∧ r2.isCached = true ∧ r2.dimensions = c2r1.dimensions ∧
        r2.outputFormat = c2r1.outputFormat :=
  processSingleImageByName_roundtrip envOk envOk [] "f" "a.png" [wFile] (some 100) none
    c2r1 c2Cache1 [Event.downloadCall "http://x/a.png"]
    (by decide) (by decide) (by decide) (by decide)

/-- With the purge flag the first pass of the folder request sends
every file to processing and serves nothing from cache. -/
theorem folderFirstPass_purge (cache : Cache) (folder : String) (w h : Option Nat) :
    ∀ fs : List SourceFile, folderFirstPass cache folder w h true fs = ([], fs) := by
  intro fs
  induction fs with
  | nil => rfl
  | cons f t ih => simp only [folderFirstPass, if_true, ih]

/-- C7: a purge call bypasses every cache read (the downloader runs
even though the key has an entry) but deletes nothing: when the
reprocessing result is not a success the cache is unchanged and a
later non-purge call still serves the pre-purge entry; when it is a
success the key is overwritten with the new entry.  The folder-level
first pass likewise sends every file to reprocessing under purge. -/
theorem processSingleImageByName_purge_semantics (env env2 : Env) (cache : Cache)
    (folderName imageName : String) (files : List SourceFile) (w h : Option Nat)
    (tf : SourceFile) (oldE : CacheEntry) (r : ProcessedResult) (cache1 : Cache) (tr : List Event)
    (hfind : files.find? (fun f => f.fileName == imageName) = some tf)
    (hsup : isSupportedFormat tf.fileUrl = true)
    (hold : cacheGet cache (generateCacheKey folderName w h tf.fileUrl) = some oldE)
    (hcall : processSingleImageByName env cache folderName imageName files w h true =
      .ok (r, cache1, tr)) :
    tr = [Event.downloadCall tf.fileUrl] ∧
    ((r.isResized && r.resizedUrl.isSome) = false →
      cache1 = cache ∧
      ∃ r2, processSingleImageByName env2 cache folderName imageName files w h false =
          .ok (r2, cache, []) ∧ r2.isCached = true ∧ r2.resizedUrl = some oldE.dataUrl ∧
          r2.dimensions = oldE.dimensions ∧ r2.outputFormat = oldE.outputFormat) ∧
    ((r.isResized && r.resizedUrl.isSome) = true →
      cache1 = cacheSet (generateCacheKey folderName w h tf.fileUrl) (entryOfResult r env.now) cache) ∧
    (∀ fs : List SourceFile, folderFirstPass cache folderName w h true fs = ([], fs)) := by
  unfold processSingleImageByName at hcall
  rw [hfind] at hcall
  dsimp only at hcall
  injection hcall with hpf
  rw [processFoundImage_purge] at hpf
  by_cases hcond : ((processSingleImage env tf folderName w h "#ffffff").1.isResized &&
      (processSingleImage env tf folderName w h "#ffffff").1.resizedUrl.isSome) = true
  · rw [if_pos hcond] at hpf
    rw [Prod.mk.injEq, Prod.mk.injEq] at hpf
    obtain ⟨h1, h2, h3⟩ := hpf
    refine ⟨?_, ?_, ?_, folderFirstPass_purge cache folderName w h⟩
    · rw [← h3]
      exact processSingleImage_trace env tf folderName w h "#ffffff" hsup
    · intro hcf
      rw [← h1] at hcf
      rw [hcf] at hcond
      exact absurd hcond (by decide)
    · intro _
      rw [← h2, h1]
  · rw [if_neg hcond] at hpf
    rw [Prod.mk.injEq, Prod.mk.injEq] at hpf
    obtain ⟨h1, h2, h3⟩ := hpf
    refine ⟨?_, ?_, ?_, folderFirstPass_purge cache folderName w h⟩
    · rw [← h3]
      exact processSingleImage_trace env tf folderName w h "#ffffff" hsup
    · intro _
      refine ⟨h2.symm, hitResult tf oldE, ?_, rfl, rfl, rfl, rfl⟩
      unfold processSingleImageByName
      rw [hfind]
      dsimp only
      rw [processFoundImage_hit env2 cache folderName w h tf oldE hold]
    · intro hct
      rw [← h1] at hct
      exact absurd hct hcond

/-- C7 witness: the purge call on a cached key re-invokes the
downloader, the download fails, and a later non-purge call still
serves the pre-purge entry. -/
theorem processSingleImageByName_purge_semantics_witness :
    ∃ r2, processSingleImageByName envDown wCache "f" "a.png" [wFile] (some 100) none false =
        .ok (r2, wCache, []) ∧ r2.isCached = true ∧ r2.resizedUrl = some wOldEntry.dataUrl ∧
        r2.dimensions = wOldEntry.dimensions ∧ r2.outputFormat = wOldEntry.outputFormat :=
  (((processSingleImageByName_purge_semantics envDown envDown wCache "f" "a.png" [wFile]
      (some 100) none wFile wOldEntry (pipelineFailure wFile "network down") wCache
      [Event.downloadCall "http://x/a.png"]
      (by decide) (by decide) (by decide) (by decide)).2.1) (by decide)).2
